import Mathlib

/-!
# Zocket server runtime — shallow embedding and verification

This file embeds the server runtime of the `zocket` repository
(`packages/core/src/server/server.ts`, `packages/core/src/core/router.ts`,
`packages/core/src/server/adapters/bun.ts`) in Lean 4 and settles the
specification claims about it.

Modelling conventions:
* JSON values are the inductive `JVal`; a JavaScript object / `Map` with
  string keys is an association list `List (String × α)` whose `set`
  operation (`mapSet`) updates an existing key in place and otherwise
  appends, exactly like `Map.set` / property assignment.
* Fallible user code (validators, middlewares, handlers, `on_disconnect`)
  is modelled as total functions returning an outcome that distinguishes
  a thrown exception from a returned value.
* Side effects of a single invocation (log lines, frames written to the
  socket, transport subscribe/unsubscribe calls) are returned as data.
-/

/-- JSON-ish values, the payload universe of the wire protocol. -/
inductive JVal where
  | jnull : JVal
  | jbool (b : Bool) : JVal
  | jnum (n : Int) : JVal
  | jstr (s : String) : JVal
  | jarr (elems : List JVal) : JVal
  | jobj (fields : List (String × JVal)) : JVal
deriving Repr

/-- The `Map.set` / JS object property assignment on an association list:
update the first binding of the key in place, otherwise append. -/
def mapSet {α : Type} : List (String × α) → String → α → List (String × α)
  | [], k, v => [(k, v)]
  | (k', v') :: rest, k, v =>
    if k' = k then (k', v) :: rest else (k', v') :: mapSet rest k v

/-- The `Map.get` / JS property read on an association list. -/
def assocGet {α : Type} : List (String × α) → String → Option α
  | [], _ => none
  | (k', v) :: rest, k => if k' = k then some v else assocGet rest k

theorem mapSet_assocGet {α : Type} (m : List (String × α)) (k k' : String) (v : α) :
    assocGet (mapSet m k v) k' = if k = k' then some v else assocGet m k' := by
  induction m with
  | nil =>
    by_cases h : k = k' <;> simp [mapSet, assocGet, h]
  | cons hd tl ih =>
    obtain ⟨k0, v0⟩ := hd
    by_cases h0 : k0 = k
    · subst h0
      by_cases h1 : k0 = k' <;> simp [mapSet, assocGet, h1]
    · by_cases h1 : k0 = k'
      · subst h1
        have hkk : ¬k = k0 := fun h => h0 h.symm
        simp [mapSet, h0, assocGet, hkk]
      · simp [mapSet, h0, assocGet, h1, ih]

/-- Result of running a standard-schema validator (`~standard.validate`):
a coerced value, a list of issues, or a thrown exception. -/
inductive ValidateResult where
  | ok (value : JVal)
  | issues (issues : List String)
  | threw

/-- A pluggable validator (the standard `validate(input) → value | issues`
contract), which may also throw. -/
abbrev Schema : Type := JVal → ValidateResult

/-- Outcome of a user handler invocation. -/
inductive HRes where
  | ok (v : JVal)
  | threw

/-- Per-request context: a shallow JS object (string-keyed). -/
abbrev Ctx : Type := List (String × JVal)

/-- A user handler: receives `{payload, ctx}` and returns a value or throws. -/
abbrev Handler : Type := JVal → Ctx → HRes

/-- Outcome of one middleware invocation: a returned value (`some` when the
return is a truthy object that gets `Object.assign`ed into the context,
`none` otherwise) or a thrown exception. -/
inductive MwRes where
  | ok (add : Option Ctx)
  | threw

/-- A middleware: receives `{ctx, payload}`. -/
abbrev Mw : Type := Ctx → JVal → MwRes

/-- Direction tag of a procedure (`_direction` in the source). -/
inductive Direction where
  | din
  | dout
deriving DecidableEq, Repr

mutual
/-- A router tree (`AnyRouter`): leaves are message definitions carrying
`_direction`, an optional `payload` schema, optional `_middlewares`, and an
optional inline `handler`; inner nodes are plain objects. -/
inductive Router where
  | leaf (direction : Direction) (payload : Option Schema)
      (middlewares : List Mw) (handler : Option Handler) : Router
  | node (children : RouterKids) : Router

/-- Ordered children of a router node (JS object keys, unique in JS but the
list also lets us model flat-key collisions from dotted segment names). -/
inductive RouterKids where
  | nil : RouterKids
  | cons (key : String) (child : Router) (rest : RouterKids) : RouterKids
end

mutual
/-- The legacy parallel handler tree (`handlers` argument of
`flattenRouter`): a node value is either a function or a nested object. -/
inductive HTree where
  | fn (h : Handler) : HTree
  | node (children : HKids) : HTree

inductive HKids where
  | nil : HKids
  | cons (key : String) (child : HTree) (rest : HKids) : HKids
end

/-- Reads `handlers[key]` on the legacy handler tree (`undefined` → `none`). -/
def hkidsGet : HKids → String → Option HTree
  | .nil, _ => none
  | .cons k c rest, key => if k = key then some c else hkidsGet rest key

/-- An entry of the flat dispatch table
(`{payload, _middlewares?, handler?}` in the source). -/
structure Entry where
  payload : Option Schema
  middlewares : List Mw
  handler : Option Handler

/-- The flat table (`out` object of `flattenRouter`). -/
abbrev FlatTable : Type := List (String × Entry)

/-- The handler the flattener picks for a leaf: the legacy external handler
(`handlers[key]` when it is a function) wins, otherwise the inline
`value.handler`. -/
def pickHandler (legacy : Option HTree) (key : String) (inline' : Option Handler) :
    Option Handler :=
  let ext : Option Handler :=
    match legacy with
    | some (.node kids) =>
      match hkidsGet kids key with
      | some (.fn h) => some h
      | _ => none
    | _ => none
  match ext with
  | some h => some h
  | none => inline'

/-- The `handlers[key]` value used for recursion into a child node
(`handlers ? handlers[key] : undefined`). -/
def legacyChild (legacy : Option HTree) (key : String) : Option HTree :=
  match legacy with
  | some (.node kids) => hkidsGet kids key
  | _ => none

/-- Embeds `path.join(".")`: the dotted wire identifier of a route path. -/
def joinDots : List String → String
  | [] => ""
  | [s] => s
  | s :: rest => s ++ "." ++ joinDots rest

mutual
/-- Embeds `flattenRouter(base, handlers, path, out)` from
`packages/core/src/core/router.ts`: depth-first traversal writing
`out[path.join "."] = {payload, _middlewares, handler?}` for each message
definition, attaching a handler only when `_direction === "in"`. The
flattener is a total function: it has no error outcome. -/
def flattenRouter (base : Router) (handlers : Option HTree) (path : List String)
    (out : FlatTable) : FlatTable :=
  match base with
  | .leaf _ _ _ _ => out
  | .node kids => flattenKids kids handlers path out

def flattenKids (kids : RouterKids) (handlers : Option HTree) (path : List String)
    (out : FlatTable) : FlatTable :=
  match kids with
  | .nil => out
  | .cons key child rest =>
    let nextPath := path ++ [key]
    match child with
    | .leaf dir payload mws inline' =>
      let flatKey := joinDots nextPath
      let handler := pickHandler handlers key inline'
      let entry : Entry :=
        { payload := payload
          middlewares := mws
          handler :=
            match dir, handler with
            | .din, some h => some h
            | _, _ => none }
      flattenKids rest handlers path (mapSet out flatKey entry)
    | .node cs =>
      let out' := flattenKids cs (legacyChild handlers key) nextPath out
      flattenKids rest handlers path out'
end

/-- Route metadata used by the dispatch engine
(`metaMap` entry: `{payloadSchema?, middlewares}`). -/
structure Meta where
  payloadSchema : Option Schema
  middlewares : List Mw

/-- Embeds `initializeHandlerMaps` from `server.ts` (for the table produced
by `flattenRouter`, which carries no hidden `__handlers` object):
`handlerMap` keeps the entries that have a handler, `metaMap` keeps
`{payloadSchema, middlewares}` for every route. -/
def initializeHandlerMaps (flat : FlatTable) :
    List (String × Handler) × List (String × Meta) :=
  (flat.filterMap fun p => p.2.handler.map fun h => (p.1, h),
   flat.map fun p => (p.1, ⟨p.2.payload, p.2.middlewares⟩))

/-! ## Dispatch engine (`createMessageHandler`, server.ts) -/

/-- An outbound frame as written to the socket
(`JSON.stringify({type, payload, rpcId?})`). -/
structure Frame where
  type : String
  payload : JVal
  rpcId : Option String
deriving Repr

/-- Console output of one dispatch-engine invocation, tagged by the source's
distinct `console.warn` / `console.error` call sites. -/
inductive LogEv where
  /-- The outer catch (malformed JSON, thrown handler, …):
  `console.error("SERVER: Error processing message:", …)`. -/
  | processingError
  /-- Warn line `console.warn("SERVER: Invalid message format received:", …)`. -/
  | invalidFormat
  /-- Warn line `console.warn("SERVER: Invalid payload for message …", issues)`. -/
  | invalidPayload (type : String) (issues : List String)
  /-- The payload validator itself threw:
  `console.warn("SERVER: Payload parsing error for …")`. -/
  | payloadParseError (type : String)
  /-- Warn line `console.warn("SERVER: Middleware error for message …")`. -/
  | middlewareError (type : String)
  /-- Warn line `console.warn("SERVER: No handler found for message type: …")`. -/
  | noHandler (type : String)

/-- The inbound message as seen after `JSON.parse`: a parse failure, a value
that is not an object with a string `type`, or a structured frame. -/
inductive InMsg where
  | malformed
  | badType
  | frame (type : String) (payload : JVal) (rpcId : Option String)

/-- Observable effects of one `createMessageHandler` invocation. -/
structure DispatchResult where
  /-- The console.warn / console.error lines emitted. -/
  logs : List LogEv
  /-- The frames the dispatch engine wrote to the originating socket. -/
  sent : List Frame
  /-- Whether the route handler was invoked. -/
  handlerCalled : Bool
  /-- How many middlewares were invoked. -/
  mwRan : Nat

/-- Outcome of running a middleware chain. -/
inductive MwOutcome where
  | done (finalCtx : Ctx) (ran : Nat)
  | threw (ran : Nat)

/-- Embeds `Object.assign(currentCtx, add)`: merge the returned object's
fields into the per-request context, left to right. -/
def objAssign (c : Ctx) (add : Ctx) : Ctx :=
  add.foldl (fun acc p => mapSet acc p.1 p.2) c

/-- The per-request context after one middleware's return value has (or has
not) been merged (`if (add && typeof add === "object") Object.assign(…)`). -/
def mwNext (c : Ctx) : Option Ctx → Ctx
  | some a => objAssign c a
  | none => c

/-- Embeds the middleware loop of `createMessageHandler`: run each
middleware in declared order on the accumulated per-request context; a
truthy object return is `Object.assign`ed in; a throw stops the chain.
`ran` counts invoked middlewares. -/
def runMws (payload : JVal) (c : Ctx) : List Mw → MwOutcome
  | [] => .done c 0
  | mw :: rest =>
    match mw c payload with
    | .threw => .threw 1
    | .ok add =>
      match runMws payload (mwNext c add) rest with
      | .done cf n => .done cf (n + 1)
      | .threw n => .threw (n + 1)

/-- Embeds the payload-validation step of `createMessageHandler`:
`if (meta?.payloadSchema) { … validate … }`. Returns the parsed payload or
the log event of the drop. -/
def payloadCheck (meta : Option Meta) (type : String) (payload : JVal) :
    Except LogEv JVal :=
  match meta with
  | some m =>
    match m.payloadSchema with
    | some s =>
      match s payload with
      | .issues iss => .error (.invalidPayload type iss)
      | .threw => .error (.payloadParseError type)
      | .ok v => .ok v
    | none => .ok payload
  | none => .ok payload

/-- The middleware list of a route's metadata (empty when the route has no
metadata, matching `meta && meta.middlewares.length > 0` guarding the loop). -/
def metaMws (meta : Option Meta) : List Mw :=
  match meta with
  | some m => m.middlewares
  | none => []

/-- JavaScript truthiness of the `rpcId` field (`if (rpcId)`): a present,
non-empty string. -/
def rpcIdTruthy : Option String → Bool
  | none => false
  | some s => !(s == "")

/-- Embeds `createMessageHandler` from `server.ts` for one inbound message,
after the connection's pending-context promise (if any) has been awaited:
`ctx?` is `clientContexts.get(clientId)` at that point. Returns the
observable effects of the invocation. -/
def createMessageHandler (handlerMap : List (String × Handler))
    (metaMap : List (String × Meta)) (ctx? : Option Ctx) (msg : InMsg) :
    DispatchResult :=
  match msg with
  | .malformed => ⟨[.processingError], [], false, 0⟩
  | .badType => ⟨[.invalidFormat], [], false, 0⟩
  | .frame type payload rpcId =>
    match assocGet handlerMap type, ctx? with
    | some handler, some ctx =>
      let meta := assocGet metaMap type
      match payloadCheck meta type payload with
      | .error e => ⟨[e], [], false, 0⟩
      | .ok parsed =>
        match runMws parsed ctx (metaMws meta) with
        | .threw n => ⟨[.middlewareError type], [], false, n⟩
        | .done cf n =>
          match handler parsed cf with
          | .threw => ⟨[.processingError], [], true, n⟩
          | .ok result =>
            if rpcIdTruthy rpcId then
              ⟨[], [⟨"__rpc_res", result, rpcId⟩], true, n⟩
            else
              ⟨[], [], true, n⟩
    | none, _ => ⟨[.noHandler type], [], false, 0⟩
    | some _, none => ⟨[], [], false, 0⟩

/-! ## Upgrade handshake (`createUpgradeHandler`, server.ts; `fetch`, bun.ts) -/

/-- A header/query bag: ordered key-value pairs of strings. -/
abbrev Bag : Type := List (String × String)

/-- The plain object the upgrade handler builds from the request's header
map (`req.headers.forEach(…)`), fed to the headers schema. -/
def bagToJVal (b : Bag) : JVal :=
  .jobj (b.map fun p => (p.1, .jstr p.2))

/-- JSON escaping of one character (quote and backslash, the cases relevant
to this development), as `JSON.stringify` performs. -/
def escapeChar (c : Char) : List Char :=
  if c = '"' then ['\\', '"'] else if c = '\\' then ['\\', '\\'] else [c]

/-- JSON escaping of a string's characters. -/
def escapeJson (s : String) : String :=
  ⟨s.data.foldr (fun c acc => escapeChar c ++ acc) []⟩

/-- Joins strings with a comma separator (`Array.prototype.join`). -/
def joinCommas : List String → String
  | [] => ""
  | [s] => s
  | s :: rest => s ++ "," ++ joinCommas rest

/-- Renders `JSON.stringify` of a list of string issues. -/
def renderStrArr (iss : List String) : String :=
  "[" ++ joinCommas (iss.map fun s => "\"" ++ escapeJson s ++ "\"") ++ "]"

/-- Renders `JSON.stringify` of the rejection body
(error "Invalid headers" plus details) for string-message issues. -/
def renderInvalidHeaders (iss : List String) : String :=
  "\x7b\"error\":\"Invalid headers\",\"details\":" ++ renderStrArr iss ++ "\x7d"

/-- Result of `createUpgradeHandler`'s returned function: `success: true`
with the validated header values, or `success: false` with an HTTP error. -/
inductive UpgradeResult where
  | accept (headers : JVal)
  | reject (status : Nat) (body : String)
deriving Repr

/-- Embeds `createUpgradeHandler` from `server.ts`: validate the header bag
against `zocket.headersSchema`; issues → 400 with the JSON
`{error: "Invalid headers", details}` body; a thrown validator → 400 with
the plain-text body `"Header validation error"`; success → accept with the
coerced values (and a fresh `client_<epoch>_<random>` id, not modelled). -/
def createUpgradeHandler (headersSchema : Schema) (bag : Bag) : UpgradeResult :=
  match headersSchema (bagToJVal bag) with
  | .issues iss => .reject 400 (renderInvalidHeaders iss)
  | .threw => .reject 400 "Header validation error"
  | .ok v => .accept v

/-- The bun adapter's test deciding whether to attach a JSON content type
to the rejection response: does the body start with an opening brace
(`startsWith` on the first character). -/
def bodyIsJson (body : String) : Bool :=
  match body.data with
  | [] => false
  | c :: _ => c = '\x7b'

/-- Merge of the bun adapter's `fetch`:
`req.headers.forEach((v,k) => headers.set(k,v))` then
`url.searchParams.forEach((v,k) => headers.set(k,v))` — query parameters
are written second, so they overwrite headers of the same name. -/
def mergeBags (reqHeaders queryParams : Bag) : Bag :=
  queryParams.foldl (fun m p => mapSet m p.1 p.2)
    (reqHeaders.foldl (fun m p => mapSet m p.1 p.2) [])

/-- The last binding of `k` in a bag (later `Map.set` wins). -/
def lastGet (b : Bag) (k : String) : Option String :=
  assocGet b.reverse k

/-- Observable outcome of the bun adapter's `fetch` for one upgrade request
(assuming the transport-level `server.upgrade` itself succeeds). -/
structure FetchOutcome where
  /-- The HTTP status of the returned response (`none` when upgraded). -/
  status : Option Nat
  /-- The body of the returned response. -/
  body : Option String
  /-- Whether a `Content-Type: application/json` header was attached. -/
  contentTypeJson : Bool
  /-- The validated handshake values handed to the websocket `open` path —
  `none` means no upgrade happened, so `onOpen` (the only caller of
  `on_connect`) never fires for this request. -/
  opened : Option JVal
deriving Repr

/-- Embeds `fetch` from `adapters/bun.ts`: build the merged header bag,
run the upgrade handler, and either return the rejection response (JSON
content type iff the body starts with a brace) or upgrade the socket. -/
def bunFetch (headersSchema : Schema) (reqHeaders queryParams : Bag) :
    FetchOutcome :=
  match createUpgradeHandler headersSchema (mergeBags reqHeaders queryParams) with
  | .reject status body => ⟨some status, some body, bodyIsJson body, none⟩
  | .accept v => ⟨none, none, false, some v⟩

/-! ## Close handler (`createCloseHandler`, server.ts) -/

/-- The per-client state of `createServer`'s four maps, restricted to one
client id. -/
structure ClientState where
  /-- Whether `clientConnections` has the client's entry. -/
  conn : Bool
  /-- The entry `clientContexts.get(clientId)`. -/
  ctx : Option Ctx
  /-- The set `clientRooms.get(clientId)` in insertion order. -/
  rooms : Option (List String)

/-- Observable outcome of one `createCloseHandler` invocation. -/
structure CloseOutcome where
  /-- The `ws.unsubscribe` calls made by the close handler. -/
  unsubscribed : List String
  /-- The `rooms` field of the context passed to `onDisconnect`
  (`none` = the callback was not invoked). -/
  disconnectArg : Option (List String)
  /-- The final per-client state of the three maps. -/
  final : ClientState

/-- Embeds `createCloseHandler` from `server.ts`: when a context exists and
`onDisconnect` is configured, call it with `{...userContext, rooms: rooms ??
new Set(), clientId}` — the live set, no copy, no per-topic
`ws.unsubscribe`; afterwards delete the client from all three maps. When
`onDisconnect` throws, the rejection propagates and the deletes are
skipped. -/
def createCloseHandler (hasOnDisconnect : Bool) (onDisconnectThrows : Bool)
    (st : ClientState) : CloseOutcome :=
  match st.ctx, hasOnDisconnect with
  | some _, true =>
    let arg := st.rooms.getD []
    if onDisconnectThrows then
      ⟨[], some arg, st⟩
    else
      ⟨[], some arg, ⟨false, none, none⟩⟩
  | _, _ => ⟨[], none, ⟨false, none, none⟩⟩

/-! ## Room operations (`roomOps` in `createOpenHandler`, server.ts) -/

/-- Embeds JS `Set.add` on an insertion-ordered set. -/
def jsSetAdd (s : List String) (x : String) : List String :=
  if x ∈ s then s else s ++ [x]

/-- Embeds JS `Set.delete` on an insertion-ordered set. -/
def jsSetDelete (s : List String) (x : String) : List String :=
  s.erase x

/-- Embeds `roomOps.join`: `rooms.add(roomId); ws.subscribe(roomId)`.
Returns the new subscription set and the transport `subscribe` calls. -/
def roomsJoin (rooms : List String) (roomId : String) :
    List String × List String :=
  (jsSetAdd rooms roomId, [roomId])

/-- Embeds `roomOps.leave`: `rooms.delete(roomId); ws.unsubscribe(roomId)`.
Returns the new subscription set and the transport `unsubscribe` calls. -/
def roomsLeave (rooms : List String) (roomId : String) :
    List String × List String :=
  (jsSetDelete rooms roomId, [roomId])

/-! ## Pending-context protocol (`createOpenHandler` / `createMessageHandler`)

`createOpenHandler` stores the `on_connect` initialisation promise in
`pendingContexts`; `createMessageHandler` awaits it before dispatching.  On
the single-threaded event loop this realises a per-connection queue: frames
arriving while the promise is pending register continuations in arrival
order, and the microtask flush at resolution runs them — still in arrival
order — before any later `message` event fires.  The step function below is
that protocol. -/

/-- Per-connection events: a frame's `message` event arriving, or the
`on_connect` initialisation promise resolving (which publishes the context
via `clientContexts.set` and clears `pendingContexts`). -/
inductive ConnEvent where
  | arrive (f : Frame)
  | resolveConnect

/-- Per-connection dispatch state: whether the context has been published,
the frames whose continuations still await the pending promise (arrival
order), and the frames whose dispatch has started (start order). -/
structure ConnState where
  published : Bool
  waiting : List Frame
  dispatched : List Frame

/-- State at `open`, before `on_connect` has resolved. -/
def initConnState : ConnState := ⟨false, [], []⟩

/-- One event-loop step of the pending-context protocol. -/
def connStep (s : ConnState) : ConnEvent → ConnState
  | .arrive f =>
    if s.published then { s with dispatched := s.dispatched ++ [f] }
    else { s with waiting := s.waiting ++ [f] }
  | .resolveConnect =>
    ⟨true, [], s.dispatched ++ s.waiting⟩

/-- Run a sequence of per-connection events. -/
def connRun (s : ConnState) (evs : List ConnEvent) : ConnState :=
  evs.foldl connStep s

/-! ## Helper lemmas -/

theorem assocGet_append {α : Type} (a b : List (String × α)) (k : String) :
    assocGet (a ++ b) k =
      (match assocGet a k with
       | some v => some v
       | none => assocGet b k) := by
  induction a with
  | nil => simp [assocGet]
  | cons hd tl ih =>
    obtain ⟨k0, v0⟩ := hd
    by_cases h : k0 = k <;> simp [assocGet, h, ih]

theorem runMws_append (payload : JVal) (l : List Mw) :
    ∀ (pre : List Mw) (c c' : Ctx) (n : Nat),
      runMws payload c pre = .done c' n →
      runMws payload c (pre ++ l) =
        (match runMws payload c' l with
         | .done cf m => MwOutcome.done cf (n + m)
         | .threw m => MwOutcome.threw (n + m)) := by
  intro pre
  induction pre with
  | nil =>
    intro c c' n h
    simp only [runMws] at h
    injection h with h1 h2
    subst h1; subst h2
    simp only [List.nil_append]
    cases hl : runMws payload c l <;> simp [hl]
  | cons mw pres ih =>
    intro c c' n h
    simp only [runMws] at h
    cases hmw : mw c payload with
    | threw =>
      simp only [hmw] at h
      exact absurd h (by simp)
    | ok add =>
      simp only [hmw] at h
      cases h2 : runMws payload (mwNext c add) pres with
      | threw m =>
        simp only [h2] at h
        exact absurd h (by simp)
      | done cf m =>
        simp only [h2] at h
        injection h with h1 h3
        subst h1
        rw [List.cons_append]
        simp only [runMws, hmw]
        rw [ih _ _ _ h2]
        cases hl : runMws payload cf l with
        | done cfl ml =>
          simp only [hl]
          subst h3
          congr 1
          omega
        | threw ml =>
          simp only [hl]
          subst h3
          congr 1
          omega

theorem runMws_done_length (payload : JVal) :
    ∀ (mws : List Mw) (c cf : Ctx) (n : Nat),
      runMws payload c mws = .done cf n → n = mws.length := by
  intro mws
  induction mws with
  | nil =>
    intro c cf n h
    simp only [runMws] at h
    injection h with h1 h2
    simp [← h2]
  | cons mw rest ih =>
    intro c cf n h
    simp only [runMws] at h
    cases hmw : mw c payload with
    | threw =>
      simp only [hmw] at h
      exact absurd h (by simp)
    | ok add =>
      simp only [hmw] at h
      cases h2 : runMws payload (mwNext c add) rest with
      | threw m =>
        simp only [h2] at h
        exact absurd h (by simp)
      | done cf' m =>
        simp only [h2] at h
        injection h with h1 h3
        have := ih _ _ _ h2
        simp [← h3, this]

theorem connRun_append (s : ConnState) (a b : List ConnEvent) :
    connRun s (a ++ b) = connRun (connRun s a) b := by
  simp [connRun, List.foldl_append]

theorem connRun_arrive_unpublished (pre : List Frame) :
    ∀ (w d : List Frame),
      connRun ⟨false, w, d⟩ (pre.map .arrive) = ⟨false, w ++ pre, d⟩ := by
  induction pre with
  | nil => intro w d; simp [connRun]
  | cons f rest ih =>
    intro w d
    simp only [List.map_cons, connRun, List.foldl_cons, connStep]
    have := ih (w ++ [f]) d
    simp only [connRun] at this
    simp [this]

theorem connRun_arrive_published (post : List Frame) :
    ∀ (w d : List Frame),
      connRun ⟨true, w, d⟩ (post.map .arrive) = ⟨true, w, d ++ post⟩ := by
  induction post with
  | nil => intro w d; simp [connRun]
  | cons f rest ih =>
    intro w d
    simp only [List.map_cons, connRun, List.foldl_cons, connStep]
    have := ih w (d ++ [f])
    simp only [connRun] at this
    simp [this]

theorem foldl_mapSet_get (l : Bag) :
    ∀ (m : Bag) (k : String),
      assocGet (l.foldl (fun m p => mapSet m p.1 p.2) m) k =
        (match lastGet l k with
         | some v => some v
         | none => assocGet m k) := by
  induction l with
  | nil => intro m k; simp [lastGet, assocGet]
  | cons p rest ih =>
    intro m k
    simp only [List.foldl_cons, ih]
    have hlast : lastGet (p :: rest) k =
        (match lastGet rest k with
         | some v => some v
         | none => if p.1 = k then some p.2 else none) := by
      simp only [lastGet, List.reverse_cons, assocGet_append]
      cases assocGet rest.reverse k <;> simp [assocGet]
    rw [hlast]
    cases lastGet rest k with
    | some v => simp
    | none =>
      by_cases hp : p.1 = k <;> simp [mapSet_assocGet, hp]

theorem jsSetAdd_idem (s : List String) (x : String) :
    jsSetAdd (jsSetAdd s x) x = jsSetAdd s x := by
  by_cases h : x ∈ s
  · simp [jsSetAdd, h]
  · simp [jsSetAdd, h]

/-! ## Concrete fixtures for witnesses and counterexamples -/

/-- A handler returning the string `"pong"`. -/
def hEcho : Handler := fun _ _ => .ok (.jstr "pong")

/-- A second handler, returning `"pong2"`. -/
def hEcho2 : Handler := fun _ _ => .ok (.jstr "pong2")

/-- A middleware that returns nothing and does not throw. -/
def mwPass : Mw := fun _ _ => .ok none

/-- A middleware that throws. -/
def mwThrow : Mw := fun _ _ => .threw

/-- A schema whose validation always reports one issue. -/
def schemaReject : Schema := fun _ => .issues ["token required"]

/-- A schema whose `validate` itself throws. -/
def schemaThrow : Schema := fun _ => .threw

/-! ## Claims -/

/-- Claim C9: for every connection and room identifier `r`, `rooms.join(r)`
twice leaves the subscription set identical to calling it once, and
`rooms.leave(r)` when `r` is not in the subscription set leaves the set
unchanged. -/
theorem rooms_join_idempotent_leave_noop (s : List String) (r : String) :
    (roomsJoin (roomsJoin s r).1 r).1 = (roomsJoin s r).1
    ∧ (r ∉ s → (roomsLeave s r).1 = s) := by
  constructor
  · simpa [roomsJoin] using jsSetAdd_idem s r
  · intro h
    simp [roomsLeave, jsSetDelete, List.erase_of_not_mem h]

/-- Witness for C9 at a concrete subscription set. -/
theorem rooms_join_idempotent_leave_noop_witness :
    (roomsJoin (roomsJoin ["a"] "c").1 "c").1 = (roomsJoin ["a"] "c").1
    ∧ (roomsLeave ["a"] "c").1 = ["a"] :=
  ⟨(rooms_join_idempotent_leave_noop ["a"] "c").1,
   (rooms_join_idempotent_leave_noop ["a"] "c").2 (by decide)⟩

/-- Claim C7: when an inbound frame's payload fails schema validation, the
dispatch engine logs a warning with the issues and drops the frame —
no middleware runs, the handler is not invoked, and no reply frame is sent
even when the frame carries an `rpcId`. -/
theorem payload_invalid_dropped (hm : List (String × Handler))
    (mm : List (String × Meta)) (ctx : Ctx) (type : String) (payload : JVal)
    (rpcId : Option String) (handler : Handler) (meta : Meta) (s : Schema)
    (iss : List String)
    (hH : assocGet hm type = some handler)
    (hMeta : assocGet mm type = some meta)
    (hS : meta.payloadSchema = some s)
    (hV : s payload = .issues iss) :
    createMessageHandler hm mm (some ctx) (.frame type payload rpcId) =
      ⟨[.invalidPayload type iss], [], false, 0⟩ := by
  simp [createMessageHandler, hH, hMeta, payloadCheck, hS, hV]

/-- Witness for C7: a failing schema on an RPC frame yields only the warn
log — no reply despite `rpcId = "r1"`. -/
theorem payload_invalid_dropped_witness :
    createMessageHandler [("t", hEcho)] [("t", ⟨some schemaReject, []⟩)]
        (some []) (.frame "t" .jnull (some "r1")) =
      ⟨[.invalidPayload "t" ["token required"]], [], false, 0⟩ :=
  payload_invalid_dropped [("t", hEcho)] [("t", ⟨some schemaReject, []⟩)] []
    "t" .jnull (some "r1") hEcho ⟨some schemaReject, []⟩ schemaReject
    ["token required"] rfl rfl rfl rfl

/-- Claim C8: when a middleware in a route's chain throws, the request is
aborted with a logged warning, the handler is never invoked, no subsequent
middleware runs (exactly the preceding ones plus the throwing one were
invoked), and no reply frame is emitted even when the frame carries an
`rpcId`. -/
theorem middleware_throw_aborts (hm : List (String × Handler))
    (mm : List (String × Meta)) (ctx : Ctx) (type : String) (payload : JVal)
    (rpcId : Option String) (handler : Handler) (parsed : JVal)
    (pre : List Mw) (bad : Mw) (post : List Mw) (c' : Ctx)
    (hH : assocGet hm type = some handler)
    (hP : payloadCheck (assocGet mm type) type payload = .ok parsed)
    (hMw : metaMws (assocGet mm type) = pre ++ bad :: post)
    (hPre : runMws parsed ctx pre = .done c' pre.length)
    (hBad : bad c' parsed = .threw) :
    createMessageHandler hm mm (some ctx) (.frame type payload rpcId) =
      ⟨[.middlewareError type], [], false, pre.length + 1⟩ := by
  have hRun : runMws parsed ctx (pre ++ bad :: post) = .threw (pre.length + 1) := by
    rw [runMws_append parsed (bad :: post) pre ctx c' pre.length hPre]
    simp [runMws, hBad]
  simp [createMessageHandler, hH, hP, hMw, hRun]

/-- Witness for C8: chain `[mwPass, mwThrow, mwPass]` on an RPC frame —
only the first two middlewares run, no handler, no reply. -/
theorem middleware_throw_aborts_witness :
    createMessageHandler [("t", hEcho)]
        [("t", ⟨none, [mwPass, mwThrow, mwPass]⟩)] (some [])
        (.frame "t" .jnull (some "r1")) =
      ⟨[.middlewareError "t"], [], false, 2⟩ :=
  middleware_throw_aborts [("t", hEcho)]
    [("t", ⟨none, [mwPass, mwThrow, mwPass]⟩)] [] "t" .jnull (some "r1")
    hEcho .jnull [mwPass] mwThrow [mwPass] [] rfl rfl rfl rfl rfl

/-- Claim C1, counterexample: the frame
`{"type": "t", "payload": null, "rpcId": ""}` carries an `rpcId` (the field
is present, the empty string), its handler runs and returns, yet the
dispatch engine emits no `__rpc_res` frame — `if (rpcId)` tests JavaScript
truthiness, not presence, so the claimed reply is missing. -/
theorem rpc_reply_counterexample :
    (createMessageHandler [("t", hEcho)] [] (some [])
        (.frame "t" .jnull (some ""))).sent = []
    ∧ (createMessageHandler [("t", hEcho)] [] (some [])
        (.frame "t" .jnull (some ""))).handlerCalled = true :=
  ⟨rfl, rfl⟩

/-- Claim C1 as amended: for every inbound frame carrying a truthy
(non-empty) `rpcId = X` whose handler runs and does not throw, the dispatch
engine emits exactly one outbound frame
`{type: "__rpc_res", payload: handler_return, rpcId: X}`; it emits no reply
when the `rpcId` field is absent or the empty string. -/
theorem rpc_reply_truthy (hm : List (String × Handler))
    (mm : List (String × Meta)) (ctx : Ctx) (type : String) (payload : JVal)
    (rpcId : Option String) (handler : Handler) (parsed : JVal) (cf : Ctx)
    (n : Nat) (v : JVal)
    (hH : assocGet hm type = some handler)
    (hP : payloadCheck (assocGet mm type) type payload = .ok parsed)
    (hM : runMws parsed ctx (metaMws (assocGet mm type)) = .done cf n)
    (hR : handler parsed cf = .ok v) :
    (∀ s, rpcId = some s → s ≠ "" →
      (createMessageHandler hm mm (some ctx) (.frame type payload rpcId)).sent
        = [⟨"__rpc_res", v, some s⟩])
    ∧ (rpcId = none →
      (createMessageHandler hm mm (some ctx) (.frame type payload rpcId)).sent = [])
    ∧ (rpcId = some "" →
      (createMessageHandler hm mm (some ctx) (.frame type payload rpcId)).sent = []) := by
  refine ⟨?_, ?_, ?_⟩
  · intro s hs hne
    subst hs
    have hb : (s == "") = false := by
      cases hbe : s == ""
      · rfl
      · exact absurd (eq_of_beq hbe) hne
    simp [createMessageHandler, hH, hP, hM, hR, rpcIdTruthy, hb]
  · intro hs
    subst hs
    simp [createMessageHandler, hH, hP, hM, hR, rpcIdTruthy]
  · intro hs
    subst hs
    simp [createMessageHandler, hH, hP, hM, hR, rpcIdTruthy]

/-- Witness for the amended C1: with `rpcId = "r1"` the reply frame carries
the handler's return and the same `rpcId`. -/
theorem rpc_reply_truthy_witness :
    (createMessageHandler [("t", hEcho)] [] (some [])
        (.frame "t" .jnull (some "r1"))).sent
      = [⟨"__rpc_res", .jstr "pong", some "r1"⟩] :=
  (rpc_reply_truthy [("t", hEcho)] [] [] "t" .jnull (some "r1") hEcho .jnull
      [] 0 (.jstr "pong") rfl rfl rfl rfl).1 "r1" rfl (by decide)

/-- Claim C2: every frame arriving after `open` but before `on_connect` has
resolved is deferred (nothing is dispatched before the context is
published), none is dropped, and the final dispatch order is the arrival
order — frames from the pending window precede, without reordering, the
frames that arrive after `on_connect` resolves. -/
theorem frames_before_open_deferred (pre post : List Frame) :
    (connRun initConnState (pre.map .arrive)).dispatched = []
    ∧ connRun initConnState
        (pre.map .arrive ++ .resolveConnect :: post.map .arrive)
      = ⟨true, [], pre ++ post⟩ := by
  have h1 : connRun initConnState (pre.map .arrive) = ⟨false, pre, []⟩ := by
    rw [show initConnState = (⟨false, [], []⟩ : ConnState) from rfl,
      connRun_arrive_unpublished]
    simp
  constructor
  · rw [h1]
  · rw [connRun_append, h1]
    simp only [connRun, List.foldl_cons, connStep, List.nil_append]
    have h2 := connRun_arrive_published post [] pre
    simpa [connRun] using h2

/-- Claim C3: the bun adapter merges protocol headers and URL query
parameters into one bag (query wins on a shared name), validates the merged
bag against the configured headers schema, and on validation issues returns
HTTP 400 with the JSON body `JSON.stringify` of
(error "Invalid headers", details issues) — and never upgrades, so the
`open` path (the only caller of `on_connect`) is never reached. -/
theorem handshake_reject_invalid (schema : Schema) (reqHeaders queryParams : Bag)
    (iss : List String)
    (hV : schema (bagToJVal (mergeBags reqHeaders queryParams)) = .issues iss) :
    bunFetch schema reqHeaders queryParams =
      ⟨some 400, some (renderInvalidHeaders iss),
        bodyIsJson (renderInvalidHeaders iss), none⟩
    ∧ ∀ k v, lastGet queryParams k = some v →
        assocGet (mergeBags reqHeaders queryParams) k = some v := by
  constructor
  · simp [bunFetch, createUpgradeHandler, hV]
  · intro k v hk
    simp only [mergeBags]
    rw [foldl_mapSet_get]
    simp [hk]

/-- Witness for C3: a rejecting schema with header `token=a` overridden by
query `token=b`; the 400 response carries the JSON body and a JSON content
type, and no upgrade happens. -/
theorem handshake_reject_invalid_witness :
    bunFetch schemaReject [("token", "a")] [("token", "b")] =
      ⟨some 400, some (renderInvalidHeaders ["token required"]), true, none⟩
    ∧ assocGet (mergeBags [("token", "a")] [("token", "b")]) "token" = some "b" :=
  ⟨(handshake_reject_invalid schemaReject [("token", "a")] [("token", "b")]
      ["token required"] rfl).1,
   (handshake_reject_invalid schemaReject [("token", "a")] [("token", "b")]
      ["token required"] rfl).2 "token" "b" rfl⟩

/-- Claim C10: when the configured headers schema's `validate` throws
(rather than returning issues), the upgrade is rejected with HTTP 400 and
the plain-text body `"Header validation error"` — no opening brace, so the
bun adapter attaches no JSON content type — and the connection is never
opened. -/
theorem handshake_thrown_validator (schema : Schema)
    (reqHeaders queryParams : Bag)
    (hV : schema (bagToJVal (mergeBags reqHeaders queryParams)) = .threw) :
    bunFetch schema reqHeaders queryParams =
      ⟨some 400, some "Header validation error", false, none⟩ := by
  simp only [bunFetch, createUpgradeHandler, hV]
  rfl

/-- Witness for C10: the always-throwing schema on an empty request. -/
theorem handshake_thrown_validator_witness :
    bunFetch schemaThrow [] [] =
      ⟨some 400, some "Header validation error", false, none⟩ :=
  handshake_thrown_validator schemaThrow [] [] rfl

/-- A router declaring an incoming procedure without a handler and an
outgoing procedure with an (inline) handler attached — both configuration
faults named by the specification. -/
def misconfiguredRouter : Router :=
  .node (.cons "noHandler" (.leaf .din none [] none)
    (.cons "evt" (.leaf .dout none [] (some hEcho)) .nil))

/-- A router whose dotted segment name collides with a nested path: keys
`"a.b"` and `a.b` both flatten to the route `"a.b"`. -/
def dottedCollisionRouter : Router :=
  .node (.cons "a.b" (.leaf .din none [] (some hEcho))
    (.cons "a"
      (.node (.cons "b" (.leaf .din none [] (some hEcho2)) .nil)) .nil))

/-- Claim C4, counterexample: flattening `misconfiguredRouter` (an incoming
procedure with no handler, plus a handler attached to an out-direction
procedure) raises no configuration error — it completes and produces a
dispatch table, the out-procedure's handler silently dropped; at runtime the
handlerless route yields only a "no handler" warning. A duplicate flat
route (`dottedCollisionRouter`) is likewise not an error: the later entry
silently overwrites the earlier one. -/
theorem flatten_no_startup_error_counterexample :
    flattenRouter misconfiguredRouter none [] []
      = [("noHandler", ⟨none, [], none⟩), ("evt", ⟨none, [], none⟩)]
    ∧ createMessageHandler
        (initializeHandlerMaps (flattenRouter misconfiguredRouter none [] [])).1
        (initializeHandlerMaps (flattenRouter misconfiguredRouter none [] [])).2
        (some []) (.frame "noHandler" .jnull none)
      = ⟨[.noHandler "noHandler"], [], false, 0⟩
    ∧ flattenRouter dottedCollisionRouter none [] []
      = [("a.b", ⟨none, [], some hEcho2⟩)] :=
  ⟨rfl, rfl, rfl⟩

/-- Claim C4 as amended: flattening the router raises no configuration
error at startup. A handler attached to an out-direction procedure is
silently omitted from the table entry; an incoming procedure with no
handler flattens to a handlerless entry whose dispatch produces only a
runtime "no handler" warning; a duplicate flat route silently overwrites
(last one wins, shown concretely by `flatten_no_startup_error_counterexample`). -/
theorem flatten_total_amended :
    (∀ (key : String) (p : Option Schema) (mws : List Mw) (h : Handler),
      flattenRouter (.node (.cons key (.leaf .dout p mws (some h)) .nil))
          none [] []
        = [(key, ⟨p, mws, none⟩)])
    ∧ (∀ (key : String) (p : Option Schema) (mws : List Mw),
      flattenRouter (.node (.cons key (.leaf .din p mws none) .nil)) none [] []
        = [(key, ⟨p, mws, none⟩)])
    ∧ (∀ (key : String) (p : Option Schema) (mws : List Mw) (c : Ctx)
        (payload : JVal) (rpcId : Option String),
      createMessageHandler
        (initializeHandlerMaps
          (flattenRouter (.node (.cons key (.leaf .din p mws none) .nil))
            none [] [])).1
        (initializeHandlerMaps
          (flattenRouter (.node (.cons key (.leaf .din p mws none) .nil))
            none [] [])).2
        (some c) (.frame key payload rpcId)
        = ⟨[.noHandler key], [], false, 0⟩) := by
  refine ⟨?_, ?_, ?_⟩
  · intro key p mws h
    simp [flattenRouter, flattenKids, pickHandler, joinDots, mapSet]
  · intro key p mws
    simp [flattenRouter, flattenKids, pickHandler, joinDots, mapSet]
  · intro key p mws c payload rpcId
    simp [flattenRouter, flattenKids, pickHandler, joinDots, mapSet,
      initializeHandlerMaps, createMessageHandler, assocGet]

/-- Claim C6, counterexample: a router with the route segment `__rpc_res`
is not rejected — the flattened dispatch table contains an entry whose
dotted path is exactly the reserved token `__rpc_res`. -/
theorem reserved_segment_counterexample :
    (flattenRouter
        (.node (.cons "__rpc_res" (.leaf .din none [] (some hEcho)) .nil))
        none [] []).map Prod.fst
      = ["__rpc_res"] :=
  rfl

/-- Claim C6 as amended: the flattener performs no reserved-segment check —
a route segment named `__rpc_res` is accepted and produces an ordinary
dispatch-table entry (handler included for an in-direction procedure),
colliding with the reserved RPC-reply frame type. -/
theorem reserved_segment_accepted_amended (p : Option Schema) (mws : List Mw)
    (h : Handler) :
    flattenRouter
        (.node (.cons "__rpc_res" (.leaf .din p mws (some h)) .nil))
        none [] []
      = [("__rpc_res", ⟨p, mws, some h⟩)] := by
  simp [flattenRouter, flattenKids, pickHandler, joinDots, mapSet]

/-- Claim C5, counterexample: for a connection subscribed to room `"r1"`,
the close handler performs zero `ws.unsubscribe` calls — it does not
iterate the subscription set to unsubscribe the transport sink — and it
passes the live set (not a read-only copy) to `on_disconnect`. -/
theorem close_no_unsubscribe_counterexample :
    (createCloseHandler true false ⟨true, some [], some ["r1"]⟩).unsubscribed = []
    ∧ (createCloseHandler true false ⟨true, some [], some ["r1"]⟩).disconnectArg
        = some ["r1"] :=
  ⟨rfl, rfl⟩

/-- Claim C5 as amended: on disconnect the close handler passes the final
subscription set to `on_disconnect` without issuing any per-topic transport
unsubscribe (socket closure itself tears down transport subscriptions), and
after the callback returns it deletes the connection from the connection,
context and room tables — so the connection no longer appears in the room
registry. -/
theorem close_cleanup_amended (c : Ctx) (rooms : List String) :
    createCloseHandler true false ⟨true, some c, some rooms⟩
      = ⟨[], some rooms, ⟨false, none, none⟩⟩ := by
  simp [createCloseHandler]
